import Mathlib

/-!
Verification development for the challenge-set analysis pipeline
(bin/analyze_challenge.py).

The script is shallowly embedded: Python floats become the inductive
type PyFloat (rationals plus nan and the two infinities, with the IEEE
comparison semantics the script relies on), CSV tables become lists of
typed rows (the per-field parsing of a CSV line is abstracted into the
row type), the directory tree of a generation run becomes the RunDir
record, and every Python function that can raise returns an
Except PyErr value whose error constructor names the exception class
the interpreter would raise at that point.
-/

/-- Python exception classes that the analyzed functions can raise. -/
inductive PyErr where
  | fileNotFound
  | stopIteration
  | typeError
  | keyError
  | valueError
deriving DecidableEq

/-- Python float values as used by the script: finite values are
abstracted to rationals; nan and the infinities are kept explicit
because the script compares scores against float("inf") and stores
float("nan") sentinels. -/
inductive PyFloat where
  | nan
  | inf
  | ninf
  | fin (q : ℚ)
deriving DecidableEq

/-- The strict < comparison on Python floats: any comparison with nan
is false; -inf is below everything but itself and nan; +inf is above
everything; finite values compare as rationals. -/
def pyLt : PyFloat → PyFloat → Bool
  | .nan, _ => false
  | .inf, _ => false
  | .ninf, .nan => false
  | .ninf, .inf => true
  | .ninf, .ninf => false
  | .ninf, .fin _ => true
  | .fin _, .nan => false
  | .fin _, .inf => true
  | .fin _, .ninf => false
  | .fin a, .fin b => decide (a < b)

/-- A data row of a per-formula candidate table
(`root/<formula>/results.csv`): candidate filename (line[0]),
iteration index (line[1], parsed by int), score (line[2], parsed by
float). -/
structure CandRow where
  fname : String
  iteration : Int
  score : PyFloat
deriving DecidableEq

/-- A data row of a run-level summary table (`root/results.csv`):
formula (line[0]), validity_rate (line[1]), mean_E (line[2]),
min_E (line[3]), each numeric field parsed by float. -/
structure SummaryRow where
  formula : String
  validity_rate : PyFloat
  mean_E : PyFloat
  min_E : PyFloat
deriving DecidableEq

/-- The dict value stored by read_results_csv for one formula. -/
structure Props where
  validity_rate : PyFloat
  mean_E : PyFloat
  min_E : PyFloat
  best_cif : Option String
deriving DecidableEq

/-- The on-disk state of one generation run: the optional run-level
summary table (none when `root/results.csv` does not exist), the
optional per-formula candidate tables (headers stripped; none when
`root/<formula>/results.csv` does not exist), and the candidate
structure files (`root/<formula>/<fname>`). -/
structure RunDir where
  summary : Option (List SummaryRow)
  candTables : String → Option (List CandRow)
  candFiles : String → String → Option String

/-- The selection loop of get_best_cif: fold over the candidate rows
keeping (best_score, best_cif_fname), updating only on a strict
score < best_score comparison; the accumulator starts at
(float("inf"), None). -/
def bestFold : List CandRow → PyFloat → Option String → PyFloat × Option String
  | [], b, n => (b, n)
  | r :: rs, b, n =>
    if pyLt r.score b then bestFold rs r.score (some r.fname)
    else bestFold rs b n

/-- Opening `root/<formula>/<fname>` and reading its content; a
missing file raises FileNotFoundError. -/
def fetchCandidate (run : RunDir) (formula fname : String) : Except PyErr String :=
  match run.candFiles formula fname with
  | some content => .ok content
  | none => .error .fileNotFound

/-- get_best_cif: read the per-formula candidate table (raising
FileNotFoundError when absent), select the strictly-lowest-score row,
and read that candidate file. When no row ever wins the strict
comparison, best_cif_fname is still None and os.path.join(..., None)
raises TypeError. -/
def get_best_cif (run : RunDir) (formula : String) : Except PyErr String :=
  match run.candTables formula with
  | none => .error .fileNotFound
  | some rows =>
    match (bestFold rows .inf none).2 with
    | none => .error .typeError
    | some fname => fetchCandidate run formula fname

/-- Opening the run-level summary table `root/results.csv`; a missing
file raises FileNotFoundError. -/
def getSummary (run : RunDir) : Except PyErr (List SummaryRow) :=
  match run.summary with
  | some rows => .ok rows
  | none => .error .fileNotFound

/-- The body of read_results_csv's row loop for one summary row:
best_cif is fetched through get_best_cif only when
validity_rate > 0, and is None otherwise. -/
def processSummaryRow (run : RunDir) (row : SummaryRow) : Except PyErr Props :=
  if pyLt (.fin 0) row.validity_rate then
    match get_best_cif run row.formula with
    | .ok c => .ok ⟨row.validity_rate, row.mean_E, row.min_E, some c⟩
    | .error e => .error e
  else .ok ⟨row.validity_rate, row.mean_E, row.min_E, none⟩

/-- The row loop of read_results_csv, building the results dict (an
association list; Python dict lookup semantics are recovered by
dictFind, which returns the last binding). -/
def buildResults (run : RunDir) :
    List SummaryRow → List (String × Props) → Except PyErr (List (String × Props))
  | [], acc => .ok acc
  | row :: rest, acc =>
    match processSummaryRow run row with
    | .error e => .error e
    | .ok p => buildResults run rest (acc ++ [(row.formula, p)])

/-- read_results_csv: open the run-level summary table and process
every row of it (including rows for formulas other than the one a
caller is interested in). -/
def read_results_csv (run : RunDir) : Except PyErr (List (String × Props)) :=
  match getSummary run with
  | .error e => .error e
  | .ok rows => buildResults run rows []

/-- Python dict lookup over the association-list model: the last
binding for a key wins, mirroring d[k] = v overwriting. -/
def dictFind {β : Type} (m : List (String × β)) (k : String) : Option β :=
  m.foldl (fun acc p => if p.1 = k then some p.2 else acc) none

/-- Python d[k]: returns the stored value or raises KeyError. -/
def dictGet {β : Type} (m : List (String × β)) (k : String) : Except PyErr β :=
  match dictFind m k with
  | some v => .ok v
  | none => .error .keyError

/-- read_props: rebuild the whole summary map via read_results_csv,
then look the formula up, defaulting to (0.0, nan, nan, None) when the
formula has no summary row. Returns (validity_rate, min_E, mean_E,
best_cif) in the source's order. -/
def read_props (run : RunDir) (formula : String) :
    Except PyErr (PyFloat × PyFloat × PyFloat × Option String) :=
  match read_results_csv run with
  | .error e => .error e
  | .ok results =>
    match dictFind results formula with
    | some p => .ok (p.validity_rate, p.min_E, p.mean_E, p.best_cif)
    | none => .ok (.fin 0, .nan, .nan, none)

/-- is_valid_on_first: a missing candidate table returns False; an
existing table is read past its header, and next() on a header-only
file raises StopIteration; otherwise the first data row's iteration
index is compared to the literal 1. -/
def is_valid_on_first (run : RunDir) (formula : String) : Except PyErr Bool :=
  match run.candTables formula with
  | none => .ok false
  | some [] => .error .stopIteration
  | some (r :: _) => .ok (decide (r.iteration = 1))

/-- matches_true: returns False at once for a None candidate; parses
both structure texts outside any try block (a parse failure
propagates); only the struct_matcher.fit call is guarded, its
exceptions being absorbed into a False result. The external parsing
and fitting capabilities are taken as parameters. -/
def matches_true {α : Type} (parse : String → Except PyErr α)
    (fit : α → α → Except PyErr Bool)
    (true_cif : String) (best_cif : Option String) : Except PyErr Bool :=
  match best_cif with
  | none => .ok false
  | some cif =>
    match parse true_cif with
    | .error e => .error e
    | .ok t =>
      match parse cif with
      | .error e => .error e
      | .ok g =>
        match fit t g with
        | .ok b => .ok b
        | .error _ => .ok false

/-- Left-pad a digit string with zeros to the given width. -/
def padZeros (width : Nat) (s : String) : String :=
  String.mk (List.replicate (width - s.length) '0') ++ s

/-- Python's fixed-point float formatting f-string, as used for the
consolidated table's numeric fields: nan and the infinities print as
their names; a finite value q is rounded to the given number of
decimal places — floor(q * 10^prec + 1/2), computed on the rational's
numerator and denominator by integer floor division (the exact IEEE
rounding mode is immaterial here since finite floats are already
abstracted to rationals). -/
def fmtFixed (prec : Nat) : PyFloat → String
  | .nan => "nan"
  | .inf => "inf"
  | .ninf => "-inf"
  | .fin q =>
    let scale : Int := ((10 ^ prec : Nat) : Int)
    let n : Int := Int.fdiv (q.num * scale * 2 + (q.den : Int)) (2 * (q.den : Int))
    let a : Nat := n.natAbs
    let ip : Nat := a / 10 ^ prec
    let fp : Nat := a % 10 ^ prec
    (if n < 0 then "-" else "") ++ toString ip ++
      (if prec = 0 then "" else "." ++ padZeros prec (toString fp))

/-- The keys of a Python dict built by repeated d[k] = v assignment:
first-insertion order, duplicates collapsed. -/
def dictKeys {β : Type} (m : List (String × β)) : List String :=
  m.foldl (fun ks p => if ks.contains p.1 then ks else ks ++ [p.1]) []

/-- The whole input state of the entry-point script: the challenge-set
dict and training-set provenance from the archive, the reference
energy table, the two generation-run directory trees, and the three
external capabilities (structure parsing, structure-matcher fit, and
the coordination-environment analysis used by write_cif_and_envs),
each of which may raise. -/
structure Env (α : Type) where
  challenge_set : List (String × String)
  training_set_formulas : List String
  alignn_energies : List (String × PyFloat)
  run_nosg : RunDir
  run_sg : RunDir
  parse : String → Except PyErr α
  fit : α → α → Except PyErr Bool
  envReport : String → Except PyErr String

/-- The four pairs of aggregate counters of the entry point:
slot 0 is the unconstrained run, slot 1 the space-group-conditioned
run. -/
structure Counters where
  validity0 : Nat
  validity1 : Nat
  vof0 : Nat
  vof1 : Nat
  all0 : Nat
  all1 : Nat
  unseen0 : Nat
  unseen1 : Nat
deriving DecidableEq

/-- All counters start at zero. -/
def initCounters : Counters := ⟨0, 0, 0, 0, 0, 0, 0, 0⟩

/-- The counter updates of the unconstrained-variant block: the unseen
counter is bumped only inside the branch that bumps the all counter,
and only when the formula was not seen in training. -/
def bumpCounters0 (c : Counters) (pos vof im seen : Bool) : Counters :=
  let c1 := if pos then { c with validity0 := c.validity0 + 1 } else c
  let c2 := if vof then { c1 with vof0 := c1.vof0 + 1 } else c1
  if im then
    let c3 := { c2 with all0 := c2.all0 + 1 }
    if seen then c3 else { c3 with unseen0 := c3.unseen0 + 1 }
  else c2

/-- The counter updates of the space-group-variant block. -/
def bumpCounters1 (c : Counters) (pos vof im seen : Bool) : Counters :=
  let c1 := if pos then { c with validity1 := c.validity1 + 1 } else c
  let c2 := if vof then { c1 with vof1 := c1.vof1 + 1 } else c1
  if im then
    let c3 := { c2 with all1 := c2.all1 + 1 }
    if seen then c3 else { c3 with unseen1 := c3.unseen1 + 1 }
  else c2

/-- One run-variant block of the per-formula loop body: read the run
properties and first-attempt validity, evaluate the match, write the
best candidate's environment report when one exists, and produce the
consolidated-table row for this variant together with the three flags
the counter updates test. sg is the literal includes_space_group
field ("no" for the unconstrained run, "yes" for the conditioned
one). -/
def variantStep {α : Type} (env : Env α) (run : RunDir) (f true_cif : String)
    (alignn_E : PyFloat) (seen : Bool) (sg : String) :
    Except PyErr (List String × Bool × Bool × Bool) :=
  match read_props run f with
  | .error e => .error e
  | .ok (validity_rate, min_E, mean_E, best_cif) =>
    match is_valid_on_first run f with
    | .error e => .error e
    | .ok valid_on_first =>
      match matches_true env.parse env.fit true_cif best_cif with
      | .error e => .error e
      | .ok is_match =>
        match (match best_cif with
               | some cif => env.envReport cif
               | none => .ok "") with
        | .error e => .error e
        | .ok _ =>
          .ok ([f, if seen then "yes" else "no", fmtFixed 5 alignn_E, sg,
                fmtFixed 5 mean_E, fmtFixed 5 min_E, fmtFixed 2 validity_rate,
                if valid_on_first then "yes" else "no",
                if is_match then "yes" else "no"],
               pyLt (.fin 0) validity_rate, valid_on_first, is_match)

/-- One iteration of the per-formula loop of the entry point:
look the formula up in the challenge set and the reference energy
table (the latter lookup is the unguarded d[k] that raises KeyError),
write the ground-truth environment report, then run both variant
blocks, threading the counters. -/
def processFormula {α : Type} (env : Env α) (f : String) (c : Counters) :
    Except PyErr (Counters × List (List String)) :=
  match dictGet env.challenge_set f with
  | .error e => .error e
  | .ok true_cif =>
    match dictGet env.alignn_energies f with
    | .error e => .error e
    | .ok alignn_E =>
      match env.envReport true_cif with
      | .error e => .error e
      | .ok _ =>
        let seen := env.training_set_formulas.contains f
        match variantStep env env.run_nosg f true_cif alignn_E seen "no" with
        | .error e => .error e
        | .ok (row0, pos0, vof0, im0) =>
          let c1 := bumpCounters0 c pos0 vof0 im0 seen
          match variantStep env env.run_sg f true_cif alignn_E seen "yes" with
          | .error e => .error e
          | .ok (row1, pos1, vof1, im1) =>
            .ok (bumpCounters1 c1 pos1 vof1 im1 seen, [row0, row1])

/-- The per-formula loop: iterate the given formula list, threading
the counters and appending each formula's pair of rows. -/
def mainLoop {α : Type} (env : Env α) :
    List String → Counters → List (List String) →
    Except PyErr (Counters × List (List String))
  | [], c, rows => .ok (c, rows)
  | f :: fs, c, rows =>
    match processFormula env f c with
    | .error e => .error e
    | .ok (c', newRows) => mainLoop env fs c' (rows ++ newRows)

/-- sorted(challenge_set): the dict's keys in lexicographic order. -/
def sortedFormulas {α : Type} (env : Env α) : List String :=
  List.insertionSort (· ≤ ·) (dictKeys env.challenge_set)

/-- The literal header row the entry point writes to the consolidated
results.csv (the second field is spelled exactly as in the source). -/
def header : List String :=
  ["formula", "seen_in_trainig", "true_E", "includes_space_group",
   "mean_E", "min_E", "pct_valid", "valid_on_first", "matches_true"]

/-- The entry point's loop over sorted formulas, from the initial
counters and an empty row list. -/
def mainResult {α : Type} (env : Env α) :
    Except PyErr (Counters × List (List String)) :=
  mainLoop env (sortedFormulas env) initCounters []

/-- The consolidated results.csv the entry point writes: the header
row followed by the accumulated data rows. -/
def outputCSV {α : Type} (env : Env α) : Except PyErr (List (List String)) :=
  match mainResult env with
  | .error e => .error e
  | .ok (_, rows) => .ok (header :: rows)

/-- The pair of rows a given formula contributes to the consolidated
table (the rows do not depend on the incoming counter state). -/
def rowsForFormula {α : Type} (env : Env α) (f : String) : List (List String) :=
  match processFormula env f initCounters with
  | .ok (_, rs) => rs
  | .error _ => []

/-- Concatenation of the per-formula row pairs over a formula list. -/
def flatRows {α : Type} (env : Env α) : List String → List (List String)
  | [] => []
  | f :: fs => rowsForFormula env f ++ flatRows env fs

/-- The documented invariant on the aggregate counters: for each
variant, the matches-true (unseen) counter is at most the
matches-true (all) counter. -/
def countersInv (c : Counters) : Prop :=
  c.unseen0 ≤ c.all0 ∧ c.unseen1 ≤ c.all1

/-- A run directory whose summary table exists but is empty (headers
only) and which has no per-formula data at all. -/
def emptyRun : RunDir :=
  ⟨some [], fun _ => none, fun _ _ => none⟩

/-- A run directory whose summary lists formula B with a positive
validity rate while B's candidate table is missing. -/
def badRun : RunDir :=
  ⟨some [⟨"B", .fin 1, .fin 2, .fin 2⟩], fun _ => none, fun _ _ => none⟩

/-- A run directory whose summary lists formula A with validity rate
exactly zero. -/
def zeroRun : RunDir :=
  ⟨some [⟨"A", .fin 0, .fin 6, .fin 7⟩], fun _ => none, fun _ _ => none⟩

/-- The candidate rows of the NaCl scenario: (c1.cif, iter 2, score 5)
then (c2.cif, iter 1, score 3). -/
def naclRows : List CandRow :=
  [⟨"c1.cif", 2, .fin 5⟩, ⟨"c2.cif", 1, .fin 3⟩]

/-- A run directory holding the NaCl candidate table and the winning
candidate's file. -/
def naclRun : RunDir :=
  ⟨some [⟨"NaCl", .fin 1, .fin 4, .fin 3⟩],
   fun f => if f = "NaCl" then some naclRows else none,
   fun f n => if f = "NaCl" then (if n = "c2.cif" then some "S2" else none) else none⟩

/-- A run directory with a single one-row candidate table whose first
data row has iteration index 1. -/
def firstRun : RunDir :=
  ⟨none, fun f => if f = "A" then some [⟨"c1.cif", 1, .fin 3⟩] else none,
   fun _ _ => none⟩

/-- Summary row for formula F, fully backed by candidate data. -/
def rowF : SummaryRow := ⟨"F", .fin 1, .fin 0, .fin 0⟩

/-- Summary row for formula G, whose candidate table will be missing. -/
def rowG : SummaryRow := ⟨"G", .fin 1, .fin 0, .fin 0⟩

/-- A run directory where formula F's data is complete and well-formed
while formula G (positive validity rate) has no candidate table. -/
def mixedRun : RunDir :=
  ⟨some [rowF, rowG],
   fun f => if f = "F" then some [⟨"c.cif", 1, .fin 2⟩] else none,
   fun f n => if f = "F" then (if n = "c.cif" then some "CF" else none) else none⟩

/-- A run directory where formula F's data is complete and well-formed
while formula G (positive validity rate) has a candidate table whose
selected best candidate's structure file is missing. -/
def fileMissingRun : RunDir :=
  ⟨some [rowF, rowG],
   fun f => if f = "F" then some [⟨"c.cif", 1, .fin 2⟩]
            else if f = "G" then some [⟨"g.cif", 1, .fin 4⟩] else none,
   fun f n => if f = "F" then (if n = "c.cif" then some "CF" else none) else none⟩

/-- A parsing capability that accepts exactly the text T. -/
def parseOnlyT : String → Except PyErr Unit :=
  fun s => if s = "T" then .ok () else .error .valueError

/-- A concrete one-formula input state where both runs have an empty
summary table and every external capability succeeds. -/
def demoEnv : Env Unit :=
  ⟨[("A", "CIFA")], [], [("A", .fin 1)], emptyRun, emptyRun,
   fun _ => .ok (), fun _ _ => .ok true, fun _ => .ok ""⟩

/-- A concrete input state whose energy reference table is missing the
only challenge formula. -/
def noEnergyEnv : Env Unit :=
  ⟨[("A", "CIFA")], [], [], emptyRun, emptyRun,
   fun _ => .ok (), fun _ _ => .ok true, fun _ => .ok ""⟩

/-- The consolidated table demoEnv produces: the header plus the two
variant rows of its single formula. -/
def demoOut : List (List String) :=
  [header,
   ["A", "no", "1.00000", "no", "nan", "nan", "0.00", "no", "no"],
   ["A", "no", "1.00000", "yes", "nan", "nan", "0.00", "no", "no"]]

theorem pyLt_irrefl (p : PyFloat) : pyLt p p = false := by
  cases p <;> simp [pyLt]

theorem pyLt_asymm {p q : PyFloat} (h : pyLt p q = true) : pyLt q p = false := by
  cases p <;> cases q <;> simp_all [pyLt]
  exact le_of_lt h

theorem pyLt_trans {p q r : PyFloat} (h1 : pyLt p q = true)
    (h2 : pyLt q r = true) : pyLt p r = true := by
  cases p <;> cases q <;> cases r <;> simp_all [pyLt]
  exact lt_trans h1 h2

theorem pyLt_sep {p b : PyFloat} {c : ℚ} (h1 : pyLt p b = true)
    (h2 : pyLt (.fin c) b = false) : pyLt p (.fin c) = true := by
  cases p <;> cases b <;> simp_all [pyLt]
  exact lt_of_lt_of_le h1 h2

theorem dictFind_mem {β : Type} {m : List (String × β)} {k : String} {v : β}
    (h : dictFind m k = some v) : (k, v) ∈ m := by
  suffices H : ∀ (m : List (String × β)) (a : Option β),
      m.foldl (fun acc p => if p.1 = k then some p.2 else acc) a = some v →
      a = some v ∨ (k, v) ∈ m by
    rcases H m none h with h' | h'
    · exact absurd h' (by simp)
    · exact h'
  intro m
  induction m with
  | nil => intro a h; exact Or.inl h
  | cons p rest ih =>
    intro a h
    obtain ⟨p1, p2⟩ := p
    rw [List.foldl_cons] at h
    rcases ih _ h with h' | h'
    · by_cases hp : p1 = k
      · simp only [hp, if_pos] at h'
        right
        have hv : p2 = v := by injection h'
        rw [← hp, ← hv]
        exact List.mem_cons_self _ _
      · simp only [hp, if_neg, if_false] at h'
        exact Or.inl h'
    · exact Or.inr (List.mem_cons_of_mem _ h')

theorem buildResults_bestNone (run : RunDir) :
    ∀ (rows : List SummaryRow) (acc res : List (String × Props)),
      (∀ gp ∈ acc, pyLt (.fin 0) gp.2.validity_rate = false → gp.2.best_cif = none) →
      buildResults run rows acc = .ok res →
      ∀ gp ∈ res, pyLt (.fin 0) gp.2.validity_rate = false → gp.2.best_cif = none := by
  intro rows
  induction rows with
  | nil =>
    intro acc res hacc h
    simp only [buildResults, Except.ok.injEq] at h
    rw [← h]
    exact hacc
  | cons row rest ih =>
    intro acc res hacc h
    cases hps : processSummaryRow run row with
    | error e => simp only [buildResults, hps] at h; cases h
    | ok p =>
      simp only [buildResults, hps] at h
      refine ih _ res ?_ h
      intro gp hgp
      rcases List.mem_append.mp hgp with hin | hin
      · exact hacc gp hin
      · rw [List.mem_singleton] at hin
        subst hin
      -- the appended entry comes from processSummaryRow
        by_cases hpos : pyLt (.fin 0) row.validity_rate = true
        · simp only [processSummaryRow, hpos, if_true] at hps
          cases hgb : get_best_cif run row.formula with
          | error e => rw [hgb] at hps; cases hps
          | ok c =>
            rw [hgb] at hps
            injection hps with hps
            intro hfalse
            rw [← hps] at hfalse
            simp only at hfalse
            rw [hpos] at hfalse
            cases hfalse
        · rw [Bool.not_eq_true] at hpos
          simp only [processSummaryRow, hpos, if_false, Bool.false_eq_true] at hps
          injection hps with hps
          intro _
          rw [← hps]

/-- Claim C1: whenever read_props reports a validity rate of exactly 0
for a formula (which includes the case of a formula absent from the
summary table), the best candidate it reports is None, and
matches_true on a None candidate returns False at once, for every
parsing and fitting capability whatsoever (so the structure matcher is
never consulted). -/
theorem claim_C1 {α : Type} (run : RunDir) (f : String) (mnE mE : PyFloat)
    (bc : Option String) (parse : String → Except PyErr α)
    (fit : α → α → Except PyErr Bool)
    (h : read_props run f = .ok (.fin 0, mnE, mE, bc)) :
    bc = none ∧ ∀ t, matches_true parse fit t bc = .ok false := by
  have hbc : bc = none := by
    cases hr : read_results_csv run with
    | error e =>
      simp only [read_props, hr] at h
      exact Except.noConfusion h
    | ok results =>
      simp only [read_props, hr] at h
      cases hd : dictFind results f with
      | none =>
        simp only [hd, Except.ok.injEq, Prod.mk.injEq] at h
        exact h.2.2.2.symm
      | some p =>
        simp only [hd, Except.ok.injEq, Prod.mk.injEq] at h
        obtain ⟨hv, _, _, hpbc⟩ := h
        unfold read_results_csv at hr
        cases hs : getSummary run with
        | error e => rw [hs] at hr; cases hr
        | ok rows =>
          rw [hs] at hr
          have hmem := dictFind_mem hd
          have hgood := buildResults_bestNone run rows [] results
            (by intro gp hgp; cases hgp) hr (f, p) hmem
          have : p.best_cif = none := by
            apply hgood
            rw [hv]
            simp [pyLt]
          rw [← hpbc, this]
  refine ⟨hbc, fun t => ?_⟩
  rw [hbc]
  rfl

/-- Witness for claim C1 at a concrete run whose summary row for A has
validity rate 0, with capabilities that always raise: the match is
still False without them being consulted. -/
theorem claim_C1_w :
    matches_true (α := Unit) (fun _ => .error .valueError)
      (fun _ _ => .error .valueError) "CIFA" none = .ok false :=
  (claim_C1 zeroRun "A" (.fin 7) (.fin 6) none
    (fun _ => .error .valueError) (fun _ _ => .error .valueError) rfl).2 "CIFA"

/-- Counterexample to claim C2: a candidate whose text fails to parse
makes matches_true raise the parse error rather than return False. -/
theorem claim_C2_cex :
    matches_true (α := Unit) (fun _ => .error .valueError) (fun _ _ => .ok true)
      "true-structure" (some "candidate") = .error .valueError ∧
    matches_true (α := Unit) (fun _ => .error .valueError) (fun _ _ => .ok true)
      "true-structure" (some "candidate") ≠ .ok false :=
  ⟨rfl, fun h => Except.noConfusion h⟩

/-- Claim C2 as amended: only failures inside the matcher's fit call
are contained (absorbed into a False result); a failure to parse
either the ground-truth or the candidate structure text happens
outside the try block and propagates out of matches_true. -/
theorem claim_C2_amended {α : Type} (parse : String → Except PyErr α)
    (fit : α → α → Except PyErr Bool) (t c : String) :
    (∀ e, parse t = .error e → matches_true parse fit t (some c) = .error e) ∧
    (∀ a e, parse t = .ok a → parse c = .error e →
      matches_true parse fit t (some c) = .error e) ∧
    (∀ a b, parse t = .ok a → parse c = .ok b →
      matches_true parse fit t (some c) =
        .ok (match fit a b with | .ok r => r | .error _ => false)) := by
  refine ⟨?_, ?_, ?_⟩
  · intro e he; simp [matches_true, he]
  · intro a e ha he; simp [matches_true, ha, he]
  · intro a b ha hb
    simp only [matches_true, ha, hb]
    cases hf : fit a b <;> rfl

/-- Witness for the amended claim C2: with a parser accepting only the
text T, a match of T against an unparsable candidate raises
ValueError. -/
theorem claim_C2_amended_w :
    matches_true parseOnlyT (fun _ _ => .ok true) "T" (some "C") = .error .valueError :=
  (claim_C2_amended parseOnlyT (fun _ _ => .ok true) "T" "C").2.1 () .valueError rfl rfl

/-- Counterexample to claim C3: a summary row with positive validity
rate whose candidate table is missing makes read_props raise
FileNotFoundError instead of degrading to the zero/NaN/None record. -/
theorem claim_C3_cex :
    read_props badRun "B" = .error .fileNotFound ∧
    read_props badRun "B" ≠ .ok (.fin 0, .nan, .nan, none) :=
  ⟨rfl, fun h => Except.noConfusion h⟩

/-- Claim C3 as amended: graceful degradation holds exactly for a
formula with no summary row (a missing formula directory included),
which yields validity_rate 0, NaN mean and min energies and no best
candidate, and for a missing candidate table in the
first-attempt-validity check, which yields False; but a summary row
with validity_rate greater than 0 whose candidate data is missing
raises an unhandled error (see C10 and the C3 counterexample). -/
theorem claim_C3_amended (run : RunDir) (f : String) (res : List (String × Props))
    (h : read_results_csv run = .ok res) (hf : dictFind res f = none) :
    read_props run f = .ok (.fin 0, .nan, .nan, none) ∧
    (run.candTables f = none → is_valid_on_first run f = .ok false) := by
  constructor
  · simp only [read_props, h, hf]
  · intro ht
    simp only [is_valid_on_first, ht]

/-- Witness for the amended claim C3 at a run with an empty summary
table and no candidate data. -/
theorem claim_C3_amended_w :
    read_props emptyRun "Li2O" = .ok (.fin 0, .nan, .nan, none) ∧
    is_valid_on_first emptyRun "Li2O" = .ok false :=
  ⟨(claim_C3_amended emptyRun "Li2O" [] rfl rfl).1,
   (claim_C3_amended emptyRun "Li2O" [] rfl rfl).2 rfl⟩

/-- Claim C6: when the per-formula candidate table exists and has at
least one data row, is_valid_on_first returns True exactly when the
first data row's iteration index is the literal 1; when the candidate
table file does not exist, it returns False. -/
theorem claim_C6 (run : RunDir) (f : String) :
    (∀ (r : CandRow) (rs : List CandRow), run.candTables f = some (r :: rs) →
      (is_valid_on_first run f = .ok true ↔ r.iteration = 1)) ∧
    (run.candTables f = none → is_valid_on_first run f = .ok false) := by
  constructor
  · intro r rs h
    simp only [is_valid_on_first, h, Except.ok.injEq, decide_eq_true_eq]
  · intro h
    simp only [is_valid_on_first, h]

/-- Witness for claim C6: the concrete one-row candidate table whose
first row has iteration index 1. -/
theorem claim_C6_w : is_valid_on_first firstRun "A" = .ok true :=
  ((claim_C6 firstRun "A").1 ⟨"c1.cif", 1, .fin 3⟩ [] rfl).mpr rfl

theorem buildResults_error (run : RunDir) (g : SummaryRow)
    (post : List SummaryRow) (e : PyErr)
    (hg : processSummaryRow run g = .error e) :
    ∀ (pre : List SummaryRow) (acc : List (String × Props)),
      (∀ r ∈ pre, ∃ p, processSummaryRow run r = .ok p) →
      buildResults run (pre ++ g :: post) acc = .error e := by
  intro pre
  induction pre with
  | nil =>
    intro acc _
    simp only [List.nil_append, buildResults, hg]
  | cons r rest ih =>
    intro acc hpre
    obtain ⟨p, hp⟩ := hpre r (List.mem_cons_self r rest)
    simp only [List.cons_append, buildResults, hp]
    exact ih _ (fun x hx => hpre x (List.mem_cons_of_mem _ hx))

/-- Claim C10: read_props for a formula f rebuilds the whole summary
map and runs best-candidate selection for every formula with positive
validity rate, so a summary row for any other formula g with positive
validity rate whose candidate data is missing — the candidate table
itself, or the structure file of the candidate the table selects —
aborts the lookup for f with FileNotFoundError, however complete f's
own data is. -/
theorem claim_C10 (run : RunDir) (f : String) (pre : List SummaryRow)
    (g : SummaryRow) (post : List SummaryRow)
    (hsum : run.summary = some (pre ++ g :: post))
    (hpre : ∀ r ∈ pre, ∃ p, processSummaryRow run r = .ok p)
    (hg : pyLt (.fin 0) g.validity_rate = true)
    (htrig : run.candTables g.formula = none ∨
      ∃ rows fname, run.candTables g.formula = some rows ∧
        (bestFold rows .inf none).2 = some fname ∧
        run.candFiles g.formula fname = none) :
    read_props run f = .error .fileNotFound := by
  have hgb : get_best_cif run g.formula = .error .fileNotFound := by
    rcases htrig with ht | ⟨rows, fname, ht, hb, hfile⟩
    · simp only [get_best_cif, ht]
    · simp only [get_best_cif, ht, hb, fetchCandidate, hfile]
  have hpg : processSummaryRow run g = .error .fileNotFound := by
    simp only [processSummaryRow, hg, if_true, hgb]
  have hrr : read_results_csv run = .error .fileNotFound := by
    simp only [read_results_csv, getSummary, hsum]
    exact buildResults_error run g post _ hpg pre [] hpre
  simp only [read_props, hrr]

/-- Witness for claim C10, exercising both triggers: formula F's own
data is complete in both runs, yet its lookup aborts because formula
G's candidate table is missing (mixedRun) or because the candidate
file G's table selects is missing (fileMissingRun). -/
theorem claim_C10_w :
    read_props mixedRun "F" = .error .fileNotFound ∧
    read_props fileMissingRun "F" = .error .fileNotFound :=
  ⟨claim_C10 mixedRun "F" [rowF] rowG [] rfl
    (by
      intro r hr
      rw [List.mem_singleton] at hr
      subst hr
      exact ⟨⟨.fin 1, .fin 0, .fin 0, some "CF"⟩, rfl⟩)
    rfl (Or.inl rfl),
   claim_C10 fileMissingRun "F" [rowF] rowG [] rfl
    (by
      intro r hr
      rw [List.mem_singleton] at hr
      subst hr
      exact ⟨⟨.fin 1, .fin 0, .fin 0, some "CF"⟩, rfl⟩)
    rfl (Or.inr ⟨[⟨"g.cif", 1, .fin 4⟩], "g.cif", rfl, rfl, rfl⟩)⟩

theorem bestFold_spec (rows : List CandRow) :
    ∀ (b : PyFloat) (name : Option String),
      (∀ x ∈ rows, ∃ q : ℚ, x.score = .fin q) →
      ((∀ x ∈ rows, pyLt x.score b = false) ∧ bestFold rows b name = (b, name)) ∨
      (∃ pre r post, rows = pre ++ r :: post ∧
        pyLt r.score b = true ∧
        bestFold rows b name = (r.score, some r.fname) ∧
        (∀ x ∈ rows, pyLt x.score r.score = false) ∧
        (∀ x ∈ pre, pyLt r.score x.score = true)) := by
  induction rows with
  | nil =>
    intro b name _
    exact Or.inl ⟨fun x hx => absurd hx (List.not_mem_nil x), rfl⟩
  | cons r0 rs ih =>
    intro b name hfin
    by_cases h0 : pyLt r0.score b = true
    · have hstep : bestFold (r0 :: rs) b name = bestFold rs r0.score (some r0.fname) := by
        simp [bestFold, h0]
      rcases ih r0.score (some r0.fname) (fun x hx => hfin x (List.mem_cons_of_mem _ hx)) with
        ⟨hall, heq⟩ | ⟨pre, r, post, hdec, hlt, heq, hmin, hpre⟩
      · right
        refine ⟨[], r0, rs, rfl, h0, ?_, ?_, ?_⟩
        · rw [hstep, heq]
        · intro x hx
          rcases List.mem_cons.mp hx with rfl | hx'
          · exact pyLt_irrefl _
          · exact hall x hx'
        · intro x hx
          exact absurd hx (List.not_mem_nil x)
      · right
        refine ⟨r0 :: pre, r, post, by rw [hdec]; rfl, pyLt_trans hlt h0, ?_, ?_, ?_⟩
        · rw [hstep, heq]
        · intro x hx
          rcases List.mem_cons.mp hx with rfl | hx'
          · exact pyLt_asymm hlt
          · exact hmin x hx'
        · intro x hx
          rcases List.mem_cons.mp hx with rfl | hx'
          · exact hlt
          · exact hpre x hx'
    · have h0f : pyLt r0.score b = false := by
        rwa [Bool.not_eq_true] at h0
      have hstep : bestFold (r0 :: rs) b name = bestFold rs b name := by
        simp [bestFold, h0f]
      rcases ih b name (fun x hx => hfin x (List.mem_cons_of_mem _ hx)) with
        ⟨hall, heq⟩ | ⟨pre, r, post, hdec, hlt, heq, hmin, hpre⟩
      · left
        refine ⟨?_, by rw [hstep, heq]⟩
        intro x hx
        rcases List.mem_cons.mp hx with rfl | hx'
        · exact h0f
        · exact hall x hx'
      · right
        obtain ⟨c, hc⟩ := hfin r0 (List.mem_cons_self _ _)
        have hr0r : pyLt r.score r0.score = true := by
          rw [hc]
          exact pyLt_sep hlt (hc ▸ h0f)
        refine ⟨r0 :: pre, r, post, by rw [hdec]; rfl, hlt, by rw [hstep, heq], ?_, ?_⟩
        · intro x hx
          rcases List.mem_cons.mp hx with rfl | hx'
          · exact pyLt_asymm hr0r
          · exact hmin x hx'
        · intro x hx
          rcases List.mem_cons.mp hx with rfl | hx'
          · exact hr0r
          · exact hpre x hx'

/-- Claim C4: for a formula whose candidate table exists and holds at
least one row (scores being finite numbers), get_best_cif resolves the
candidate file of a row r whose score no row strictly undercuts, and
every row listed before r has a strictly larger score — so the minimum
wins and ties resolve to the first-encountered row, the strict <
comparison never replacing on equal score. -/
theorem claim_C4 (run : RunDir) (f : String) (rows : List CandRow)
    (hT : run.candTables f = some rows) (hne : rows ≠ [])
    (hfin : ∀ x ∈ rows, ∃ q : ℚ, x.score = .fin q) :
    ∃ pre r post, rows = pre ++ r :: post ∧
      (∀ x ∈ rows, pyLt x.score r.score = false) ∧
      (∀ x ∈ pre, pyLt r.score x.score = true) ∧
      get_best_cif run f = fetchCandidate run f r.fname := by
  rcases bestFold_spec rows .inf none hfin with
    ⟨hall, _⟩ | ⟨pre, r, post, hdec, _, heq, hmin, hpre⟩
  · obtain ⟨r0, rs, rfl⟩ := List.exists_cons_of_ne_nil hne
    obtain ⟨q, hq⟩ := hfin r0 (List.mem_cons_self _ _)
    have hcontra := hall r0 (List.mem_cons_self _ _)
    rw [hq] at hcontra
    simp [pyLt] at hcontra
  · refine ⟨pre, r, post, hdec, hmin, hpre, ?_⟩
    simp only [get_best_cif, hT, heq]

/-- Witness for claim C4 at the NaCl scenario rows
(c1.cif, iter 2, score 5) and (c2.cif, iter 1, score 3). -/
theorem claim_C4_w :
    ∃ pre r post, naclRows = pre ++ r :: post ∧
      (∀ x ∈ naclRows, pyLt x.score r.score = false) ∧
      (∀ x ∈ pre, pyLt r.score x.score = true) ∧
      get_best_cif naclRun "NaCl" = fetchCandidate naclRun "NaCl" r.fname :=
  claim_C4 naclRun "NaCl" naclRows rfl (by simp [naclRows])
    (by
      intro x hx
      simp only [naclRows, List.mem_cons, List.not_mem_nil, or_false] at hx
      rcases hx with rfl | rfl
      exacts [⟨5, rfl⟩, ⟨3, rfl⟩])

theorem bumpCounters0_inv (c : Counters) (pos vof im seen : Bool)
    (h : countersInv c) : countersInv (bumpCounters0 c pos vof im seen) := by
  obtain ⟨h0, h1⟩ := h
  cases pos <;> cases vof <;> cases im <;> cases seen <;>
    simp_all [bumpCounters0, countersInv] <;> omega

theorem bumpCounters1_inv (c : Counters) (pos vof im seen : Bool)
    (h : countersInv c) : countersInv (bumpCounters1 c pos vof im seen) := by
  obtain ⟨h0, h1⟩ := h
  cases pos <;> cases vof <;> cases im <;> cases seen <;>
    simp_all [bumpCounters1, countersInv] <;> omega

theorem processFormula_inv {α : Type} (env : Env α) (f : String) (c c' : Counters)
    (rs : List (List String)) (h : processFormula env f c = .ok (c', rs))
    (hc : countersInv c) : countersInv c' := by
  cases h1 : dictGet env.challenge_set f with
  | error e => simp only [processFormula, h1] at h; exact Except.noConfusion h
  | ok t =>
    simp only [processFormula, h1] at h
    cases h2 : dictGet env.alignn_energies f with
    | error e => simp only [h2] at h; exact Except.noConfusion h
    | ok aE =>
      simp only [h2] at h
      cases h3 : env.envReport t with
      | error e => simp only [h3] at h; exact Except.noConfusion h
      | ok s =>
        simp only [h3] at h
        cases h4 : variantStep env env.run_nosg f t aE (env.training_set_formulas.contains f) "no" with
        | error e => simp only [h4] at h; exact Except.noConfusion h
        | ok p0 =>
          obtain ⟨row0, pos0, vof0, im0⟩ := p0
          simp only [h4] at h
          cases h5 : variantStep env env.run_sg f t aE (env.training_set_formulas.contains f) "yes" with
          | error e => simp only [h5] at h; exact Except.noConfusion h
          | ok p1 =>
            obtain ⟨row1, pos1, vof1, im1⟩ := p1
            simp only [h5, Except.ok.injEq, Prod.mk.injEq] at h
            rw [← h.1]
            exact bumpCounters1_inv _ _ _ _ _
              (bumpCounters0_inv _ _ _ _ _ hc)

/-- Claim C5: the matches-true (unseen) aggregate counter never
exceeds the matches-true (all) counter, for either run variant: the
invariant is preserved by every iteration of the per-formula loop
(hence holds at every point of it) and holds of the final counters of
a completed run, because the unseen counter is only bumped inside the
branch that bumps the all counter. -/
theorem claim_C5 {α : Type} (env : Env α) :
    (∀ (ks : List String) (c : Counters) (rows : List (List String))
       (c' : Counters) (rows' : List (List String)), countersInv c →
       mainLoop env ks c rows = .ok (c', rows') → countersInv c') ∧
    (∀ (c' : Counters) (rows' : List (List String)),
       mainResult env = .ok (c', rows') → countersInv c') := by
  have hloop : ∀ (ks : List String) (c : Counters) (rows : List (List String))
      (c' : Counters) (rows' : List (List String)), countersInv c →
      mainLoop env ks c rows = .ok (c', rows') → countersInv c' := by
    intro ks
    induction ks with
    | nil =>
      intro c rows c' rows' hc h
      simp only [mainLoop, Except.ok.injEq, Prod.mk.injEq] at h
      rw [← h.1]
      exact hc
    | cons f fs ih =>
      intro c rows c' rows' hc h
      cases hp : processFormula env f c with
      | error e => simp only [mainLoop, hp] at h; exact Except.noConfusion h
      | ok pr =>
        obtain ⟨cN, rowsN⟩ := pr
        simp only [mainLoop, hp] at h
        exact ih cN (rows ++ rowsN) c' rows'
          (processFormula_inv env f c cN rowsN hp hc) h
  exact ⟨hloop, fun c' rows' h =>
    hloop (sortedFormulas env) initCounters [] c' rows'
      ⟨Nat.le.refl, Nat.le.refl⟩ h⟩

/-- Witness for claim C5: the completed run on the concrete demoEnv
ends with counters satisfying the invariant. -/
theorem claim_C5_w : countersInv initCounters :=
  (claim_C5 demoEnv).2 initCounters
    [["A", "no", "1.00000", "no", "nan", "nan", "0.00", "no", "no"],
     ["A", "no", "1.00000", "yes", "nan", "nan", "0.00", "no", "no"]] rfl

/-- Claim C8: for a formula the aggregator iterates (a challenge-set
key), absence from the energy reference mapping makes the per-formula
step — and with it the remaining run — abort with KeyError; and
whenever the formula is present in the mapping, the energy lookup
returns its value without raising. -/
theorem claim_C8 {α : Type} (env : Env α) (f : String) :
    (∀ t, dictGet env.challenge_set f = .ok t →
      dictFind env.alignn_energies f = none →
      (∀ c, processFormula env f c = .error .keyError) ∧
      (∀ (ks : List String) (c : Counters) (rows : List (List String)),
        mainLoop env (f :: ks) c rows = .error .keyError)) ∧
    (∀ e, dictFind env.alignn_energies f = some e →
      dictGet env.alignn_energies f = .ok e) := by
  constructor
  · intro t ht hnone
    have hpf : ∀ c, processFormula env f c = .error .keyError := by
      intro c
      simp only [processFormula, ht]
      simp only [dictGet, hnone]
    refine ⟨hpf, ?_⟩
    intro ks c rows
    simp only [mainLoop, hpf c]
  · intro e he
    simp only [dictGet, he]

/-- Witness for claim C8 at the concrete input state whose energy
table is empty. -/
theorem claim_C8_w : processFormula noEnergyEnv "A" initCounters = .error .keyError :=
  ((claim_C8 noEnergyEnv "A").1 "CIFA" rfl rfl).1 initCounters

/-- Counterexample to claim C9: the header row the aggregator actually
writes spells its second field seen_in_trainig, not the
seen_in_training the claim states. -/
theorem claim_C9_cex :
    outputCSV demoEnv = .ok demoOut ∧
    demoOut.head? = some header ∧
    header.get? 1 = some "seen_in_trainig" ∧
    header.get? 1 ≠ some "seen_in_training" :=
  ⟨rfl, rfl, rfl, by decide⟩

/-- Claim C9 as amended: the consolidated results.csv is exactly the
literal header row (formula, seen_in_trainig, true_E,
includes_space_group, mean_E, min_E, pct_valid, valid_on_first,
matches_true) — with the source's spelling of the second field —
followed by the data rows accumulated by the per-formula loop. -/
theorem claim_C9_amended {α : Type} (env : Env α) (out : List (List String))
    (h : outputCSV env = .ok out) :
    ∃ cr : Counters × List (List String), mainResult env = .ok cr ∧
      out = header :: cr.2 ∧
      header = ["formula", "seen_in_trainig", "true_E", "includes_space_group",
                "mean_E", "min_E", "pct_valid", "valid_on_first", "matches_true"] := by
  cases hm : mainResult env with
  | error e => simp only [outputCSV, hm] at h; exact Except.noConfusion h
  | ok cr =>
    obtain ⟨c, rows⟩ := cr
    simp only [outputCSV, hm, Except.ok.injEq] at h
    exact ⟨(c, rows), rfl, h.symm, rfl⟩

/-- Witness for the amended claim C9 at the concrete demoEnv. -/
theorem claim_C9_amended_w :
    ∃ cr : Counters × List (List String), mainResult demoEnv = .ok cr ∧
      demoOut = header :: cr.2 ∧
      header = ["formula", "seen_in_trainig", "true_E", "includes_space_group",
                "mean_E", "min_E", "pct_valid", "valid_on_first", "matches_true"] :=
  claim_C9_amended demoEnv demoOut rfl

theorem variantStep_fields {α : Type} (env : Env α) (run : RunDir) (f t : String)
    (aE : PyFloat) (seen : Bool) (sg : String) (row : List String)
    (fl : Bool × Bool × Bool)
    (h : variantStep env run f t aE seen sg = .ok (row, fl)) :
    row.get? 0 = some f ∧ row.get? 3 = some sg := by
  cases h1 : read_props run f with
  | error e => simp only [variantStep, h1] at h; exact Except.noConfusion h
  | ok q =>
    obtain ⟨vr, mnE, mE, bc⟩ := q
    simp only [variantStep, h1] at h
    cases h2 : is_valid_on_first run f with
    | error e => simp only [h2] at h; exact Except.noConfusion h
    | ok vof =>
      simp only [h2] at h
      cases h3 : matches_true env.parse env.fit t bc with
      | error e => simp only [h3] at h; exact Except.noConfusion h
      | ok im =>
        simp only [h3] at h
        cases bc with
        | none =>
          simp only [Except.ok.injEq, Prod.mk.injEq] at h
          rw [← h.1]
          exact ⟨rfl, rfl⟩
        | some cif =>
          cases h4 : env.envReport cif with
          | error e => simp only [h4] at h; exact Except.noConfusion h
          | ok s =>
            simp only [h4, Except.ok.injEq, Prod.mk.injEq] at h
            rw [← h.1]
            exact ⟨rfl, rfl⟩

theorem processFormula_shape {α : Type} (env : Env α) (f : String) (c c' : Counters)
    (rs : List (List String)) (h : processFormula env f c = .ok (c', rs)) :
    (∀ c2 : Counters, ∃ c2' : Counters, processFormula env f c2 = .ok (c2', rs)) ∧
    ∃ row0 row1, rs = [row0, row1] ∧
      row0.get? 0 = some f ∧ row0.get? 3 = some "no" ∧
      row1.get? 0 = some f ∧ row1.get? 3 = some "yes" := by
  cases h1 : dictGet env.challenge_set f with
  | error e => simp only [processFormula, h1] at h; exact Except.noConfusion h
  | ok t =>
    simp only [processFormula, h1] at h
    cases h2 : dictGet env.alignn_energies f with
    | error e => simp only [h2] at h; exact Except.noConfusion h
    | ok aE =>
      simp only [h2] at h
      cases h3 : env.envReport t with
      | error e => simp only [h3] at h; exact Except.noConfusion h
      | ok s =>
        simp only [h3] at h
        cases h4 : variantStep env env.run_nosg f t aE
            (env.training_set_formulas.contains f) "no" with
        | error e => simp only [h4] at h; exact Except.noConfusion h
        | ok p0 =>
          obtain ⟨row0, fl0⟩ := p0
          obtain ⟨pos0, vof0, im0⟩ := fl0
          simp only [h4] at h
          cases h5 : variantStep env env.run_sg f t aE
              (env.training_set_formulas.contains f) "yes" with
          | error e => simp only [h5] at h; exact Except.noConfusion h
          | ok p1 =>
            obtain ⟨row1, fl1⟩ := p1
            obtain ⟨pos1, vof1, im1⟩ := fl1
            simp only [h5, Except.ok.injEq, Prod.mk.injEq] at h
            obtain ⟨hc', hrs⟩ := h
            constructor
            · intro c2
              refine ⟨bumpCounters1 (bumpCounters0 c2 pos0 vof0 im0
                  (env.training_set_formulas.contains f)) pos1 vof1 im1
                  (env.training_set_formulas.contains f), ?_⟩
              simp only [processFormula, h1, h2, h3, h4, h5]
              rw [hrs]
            · obtain ⟨h00, h03⟩ := variantStep_fields env env.run_nosg f t aE
                (env.training_set_formulas.contains f) "no" row0 (pos0, vof0, im0) h4
              obtain ⟨h10, h13⟩ := variantStep_fields env env.run_sg f t aE
                (env.training_set_formulas.contains f) "yes" row1 (pos1, vof1, im1) h5
              exact ⟨row0, row1, hrs.symm, h00, h03, h10, h13⟩

theorem mainLoop_rows {α : Type} (env : Env α) :
    ∀ (ks : List String) (c : Counters) (rows0 : List (List String))
      (c' : Counters) (rows' : List (List String)),
      mainLoop env ks c rows0 = .ok (c', rows') →
      rows' = rows0 ++ flatRows env ks ∧
      ∀ f ∈ ks, ∃ cf rs, processFormula env f initCounters = .ok (cf, rs) := by
  intro ks
  induction ks with
  | nil =>
    intro c rows0 c' rows' h
    simp only [mainLoop, Except.ok.injEq, Prod.mk.injEq] at h
    refine ⟨?_, ?_⟩
    · rw [← h.2, flatRows, List.append_nil]
    · intro f hf
      exact absurd hf (List.not_mem_nil f)
  | cons f fs ih =>
    intro c rows0 c' rows' h
    cases hp : processFormula env f c with
    | error e => simp only [mainLoop, hp] at h; exact Except.noConfusion h
    | ok pr =>
      obtain ⟨cN, rs⟩ := pr
      simp only [mainLoop, hp] at h
      obtain ⟨ci, hci⟩ := (processFormula_shape env f c cN rs hp).1 initCounters
      have hfr : rowsForFormula env f = rs := by
        simp only [rowsForFormula, hci]
      obtain ⟨hrows, hall⟩ := ih cN (rows0 ++ rs) c' rows' h
      constructor
      · rw [hrows, flatRows, hfr, List.append_assoc]
      · intro g hg
        rcases List.mem_cons.mp hg with rfl | hg'
        · exact ⟨ci, rs, hci⟩
        · exact hall g hg'

/-- Claim C7: the pipeline is deterministic — on equal inputs the
consolidated table is identical — and the data rows are exactly the
concatenation, over the challenge formulas in lexicographically sorted
order, of each formula's pair of rows, the unconstrained-variant row
(includes_space_group field "no") immediately before the
space-group-conditioned row ("yes"). -/
theorem claim_C7 {α : Type} (env : Env α) (out : List (List String))
    (h : outputCSV env = .ok out) :
    (∀ env2 : Env α, env2 = env → outputCSV env2 = .ok out) ∧
    List.Sorted (fun a b => a ≤ b) (sortedFormulas env) ∧
    out = header :: flatRows env (sortedFormulas env) ∧
    ∀ f ∈ sortedFormulas env, ∃ row0 row1,
      rowsForFormula env f = [row0, row1] ∧
      row0.get? 0 = some f ∧ row0.get? 3 = some "no" ∧
      row1.get? 0 = some f ∧ row1.get? 3 = some "yes" := by
  refine ⟨fun env2 he => he ▸ h, List.sorted_insertionSort _ _, ?_, ?_⟩
  · cases hm : mainResult env with
    | error e => simp only [outputCSV, hm] at h; exact Except.noConfusion h
    | ok cr =>
      obtain ⟨c, rows⟩ := cr
      simp only [outputCSV, hm, Except.ok.injEq] at h
      obtain ⟨hrows, _⟩ := mainLoop_rows env (sortedFormulas env) initCounters [] c rows hm
      rw [← h, hrows, List.nil_append]
  · intro f hf
    cases hm : mainResult env with
    | error e => simp only [outputCSV, hm] at h; exact Except.noConfusion h
    | ok cr =>
      obtain ⟨c, rows⟩ := cr
      obtain ⟨_, hall⟩ := mainLoop_rows env (sortedFormulas env) initCounters [] c rows hm
      obtain ⟨cf, rs, hcf⟩ := hall f hf
      obtain ⟨hind, row0, row1, hrs, h00, h03, h10, h13⟩ :=
        processFormula_shape env f initCounters cf rs hcf
      refine ⟨row0, row1, ?_, h00, h03, h10, h13⟩
      simp only [rowsForFormula, hcf, hrs]

/-- Witness for claim C7: the concrete demoEnv run's table is the
header followed by the sorted flattened per-formula rows. -/
theorem claim_C7_w : demoOut = header :: flatRows demoEnv (sortedFormulas demoEnv) :=
  (claim_C7 demoEnv demoOut rfl).2.2.1
